import Mathlib

/- Shallow embedding of the auto_excel transcription pipeline
   (src/app/transcriber/trancribe.py and src/app/transcriber/boto_client.py).
   Python strings are modelled as List Char.  Calls to external services
   (S3 uploads, AWS Transcribe polling, the HTTP fetch of a finished
   transcript) are modelled as oracle parameters supplied to the functions;
   a raised Python exception is modelled as Except.error carrying the
   message of the exception. -/

/- Generic helpers mirroring Python string primitives. -/

/-- Boolean prefix test on character lists. -/
def isPrefixOfCL : List Char → List Char → Bool
  | [], _ => true
  | _ :: _, [] => false
  | a :: as, b :: bs => if a = b then isPrefixOfCL as bs else false

/-- Find the leftmost occurrence of sep, returning the part before it and
the part after it.  This is the primitive behind the Python expression
s.split(sep) as used by boto_client.py, which only ever reads parts 0 and 1. -/
def splitFirst (sep : List Char) : List Char → Option (List Char × List Char)
  | [] => if isPrefixOfCL sep [] then some ([], ([] : List Char).drop sep.length) else none
  | c :: cs =>
    if isPrefixOfCL sep (c :: cs) then some ([], (c :: cs).drop sep.length)
    else (splitFirst sep cs).map fun p => (c :: p.1, p.2)

/-- Whether sep occurs as a contiguous substring. -/
def containsSub (sep s : List Char) : Bool := (splitFirst sep s).isSome

/-- Python s.split(sep)[1]: the text between the first and the second
occurrence of sep (up to the end when sep occurs once).  Returns none when
sep does not occur at all, which in Python is an IndexError. -/
def extractObjectKey (sep url : List Char) : Option (List Char) :=
  match splitFirst sep url with
  | none => none
  | some (_, rest) =>
    match splitFirst sep rest with
    | none => some rest
    | some (b, _) => some b

/-- Python s.replace(a, b) for single characters. -/
def pyReplace (a b : Char) (s : List Char) : List Char :=
  s.map fun c => if c = a then b else c

/-- Python os.path.basename: the part after the last slash. -/
def basenameCL (s : List Char) : List Char :=
  (s.reverse.takeWhile fun c => ¬ (c = '/')).reverse

/- Decimal rendering of a natural number, modelling the Python f-string
   interpolation of the integer loop index.  The first argument is fuel for
   structural recursion; natToChars supplies enough of it. -/

def digitChar (d : Nat) : Char := Char.ofNat (48 + d)

def natDigitsGo : Nat → Nat → List Char
  | 0, _ => []
  | fuel + 1, n =>
    if n = 0 then [] else natDigitsGo fuel (n / 10) ++ [digitChar (n % 10)]

/-- Decimal digit string of a natural number, as Python str(i) produces. -/
def natToChars (n : Nat) : List Char :=
  if n = 0 then ['0'] else natDigitsGo n n

/-- Left inverse of natToChars, used to prove its injectivity. -/
def charsToNat (s : List Char) : Nat :=
  s.foldl (fun acc c => 10 * acc + (c.toNat - 48)) 0

/- boto_client.py: the object-storage client.  BUCKET = "voxbee". -/

/-- Outcome of a low-level boto3 call: a botocore ClientError, or an
exception of any other class (for example boto3 transfer errors or local
file errors), each carrying its message. -/
inductive S3Err where
  | clientError (msg : List Char)
  | otherError (msg : List Char)
deriving DecidableEq

/-- Object key construction of upload_user_file:
user_{user_id}/{feature_name}/{project_id}/{object_name}. -/
def objectKey (userId featureName projectId objName : List Char) : List Char :=
  "user_".data ++ userId ++ '/' :: featureName ++ '/' :: projectId ++ '/' :: objName

/-- Public URL built by upload_user_file for an object key, including the
final replace of backslashes by forward slashes applied to the whole URL. -/
def publicUrlFor (key : List Char) : List Char :=
  pyReplace '\\' '/' ("https://voxbee.s3.amazonaws.com/".data ++ key)

/-- The separator that download_user_file and delete_user_file split a
public URL on to recover the object key. -/
def urlSep (bucket : List Char) : List Char :=
  bucket ++ ".s3.amazonaws.com/".data

/-- Content type table of upload_user_file (Python str.lower on ASCII
extensions is modelled by Char.toLower). -/
def contentTypeFor (fileName : List Char) : List Char :=
  let n := fileName.map Char.toLower
  if isPrefixOfCL ".mp3".data.reverse n.reverse || isPrefixOfCL ".mpeg".data.reverse n.reverse then
    "audio/mpeg".data
  else if isPrefixOfCL ".wav".data.reverse n.reverse then "audio/wav".data
  else if isPrefixOfCL ".txt".data.reverse n.reverse then "text/plain".data
  else if isPrefixOfCL ".html".data.reverse n.reverse then "text/html; charset=utf-8".data
  else if isPrefixOfCL ".mp4".data.reverse n.reverse then "video/mp4".data
  else if isPrefixOfCL ".mov".data.reverse n.reverse then "video/quicktime".data
  else "application/octet-stream".data

/-- upload_user_file.  s3Call is the outcome of s3.upload_file: none on
success.  Only ClientError is caught and turned into (False, None); any
other exception class propagates, modelled as Except.error.  On success the
public URL is returned together with True. -/
def upload_user_file (s3Call : Option S3Err) (fileName userId featureName projectId : List Char)
    (objectName : Option (List Char)) : Except (List Char) (Bool × Option (List Char)) :=
  let objName := objectName.getD (basenameCL fileName)
  let key := objectKey userId featureName projectId objName
  match s3Call with
  | none => Except.ok (true, some (publicUrlFor key))
  | some (S3Err.clientError _) => Except.ok (false, none)
  | some (S3Err.otherError m) => Except.error m

/-- download_user_file.  The object key is taken from the public URL by
split(bucket + ".s3.amazonaws.com/")[1]; a missing separator is a Python
IndexError, caught by the blanket except clause, hence the none branch
returns False.  s3Call is the outcome of s3.download_file (ClientError and
every other exception are both caught and yield False); existsAfter is the
os.path.exists verification of the downloaded file. -/
def download_user_file (s3Call : Option S3Err) (existsAfter : Bool)
    (publicUrl downloadPath bucket : List Char) : Bool :=
  match extractObjectKey (urlSep bucket) publicUrl with
  | none => false
  | some _ =>
    match s3Call with
    | some _ => false
    | none => existsAfter

/-- delete_user_file: same key extraction; every exception is caught and
yields False; otherwise the delete call outcome decides the result. -/
def delete_user_file (s3Call : Option S3Err) (publicUrl bucket : List Char) : Bool :=
  match extractObjectKey (urlSep bucket) publicUrl with
  | none => false
  | some _ =>
    match s3Call with
    | some _ => false
    | none => true

/- trancribe.py: the transcription-job orchestrator transcribe_file. -/

/-- One response of transcribe.get_transcription_job: the job status string,
the transcript file URI (read only when the status is COMPLETED) and the
optional FailureReason field. -/
structure PollResp where
  status : List Char
  transcriptUri : List Char
  failureReason : Option (List Char)
deriving DecidableEq

/-- The JSON document fetched from the transcript URI:
results.transcripts is a list of objects with a transcript field. -/
structure TranscriptDoc where
  transcripts : List (List Char)
deriving DecidableEq

/-- Result of transcribe_file: the returned transcript text, a raised
Exception for a FAILED job, a raised IndexError when the fetched document
has no transcript entry, or a raised TimeoutError. -/
inductive TOutcome where
  | transcript (text : List Char)
  | parseFailure
  | jobFailed (msg : List Char)
  | timedOut (msg : List Char)
deriving DecidableEq

/-- Terminal statuses, as the membership test in ["COMPLETED", "FAILED"]. -/
def isTerminal (r : PollResp) : Prop :=
  r.status = "COMPLETED".data ∨ r.status = "FAILED".data

instance (r : PollResp) : Decidable (isTerminal r) := by
  unfold isTerminal
  exact inferInstance

/-- transcript_data.results.transcripts[0].transcript of trancribe.py;
indexing an empty list is a Python IndexError. -/
def completedResult (doc : TranscriptDoc) : TOutcome :=
  match doc.transcripts with
  | [] => TOutcome.parseFailure
  | tx :: _ => TOutcome.transcript tx

/-- The while loop of transcribe_file.  poll k is the response of the
(k+1)-th get_transcription_job call; fetch models urllib.request fetching
and parsing the transcript document at a URI.  The first Nat argument
counts the status checks already performed, the second is the remaining
max_tries budget.  Returns the outcome, the total number of status checks
performed, and the list of time.sleep durations executed in order. -/
def pollLoop (poll : Nat → PollResp) (fetch : List Char → TranscriptDoc) (job : List Char) :
    Nat → Nat → TOutcome × Nat × List Nat
  | checksDone, 0 =>
    (TOutcome.timedOut ("Transcription job ".data ++ job ++ " timed out".data), checksDone, [])
  | checksDone, triesLeft + 1 =>
    let r := poll checksDone
    if r.status = "COMPLETED".data then
      (completedResult (fetch r.transcriptUri), checksDone + 1, [])
    else if r.status = "FAILED".data then
      (TOutcome.jobFailed
        ("Transcription failed: ".data ++ r.failureReason.getD "Unknown error".data),
       checksDone + 1, [])
    else
      let rest := pollLoop poll fetch job (checksDone + 1) triesLeft
      (rest.1, rest.2.1, 10 :: rest.2.2)

/-- transcribe_file: max_tries = 60 status checks at most. -/
def transcribe_file (poll : Nat → PollResp) (fetch : List Char → TranscriptDoc)
    (job : List Char) : TOutcome × Nat × List Nat :=
  pollLoop poll fetch job 0 60

/-- media_format = file_uri.split(".")[-1].lower() of transcribe_file. -/
def mediaFormatOf (uri : List Char) : List Char :=
  ((uri.reverse.takeWhile fun c => ¬ (c = '.')).reverse).map Char.toLower

/- trancribe.py: the batch driver transcribe_audio_directory. -/

/-- Allowed characters of the filename sanitization pattern
[^0-9a-zA-Z._-], which re.sub replaces by an underscore. -/
def isAllowedChar (c : Char) : Bool :=
  decide (('0' ≤ c ∧ c ≤ '9') ∨ ('a' ≤ c ∧ c ≤ 'z') ∨ ('A' ≤ c ∧ c ≤ 'Z') ∨
    c = '.' ∨ c = '_' ∨ c = '-')

def sanitizeChar (c : Char) : Char := if isAllowedChar c then c else '_'

/-- The filename sanitization re.sub applies before renaming each file. -/
def sanitize (s : List Char) : List Char := s.map sanitizeChar

/-- Python pathlib suffix: the extension from the last dot, empty when the
dot is the first or the last character or absent. -/
def pySuffix (name : List Char) : List Char :=
  let ext := name.reverse.takeWhile fun c => ¬ (c = '.')
  if 0 < ext.length ∧ ext.length + 1 < name.length then '.' :: ext.reverse else []

/-- Python pathlib stem: the name without its suffix. -/
def pyStem (name : List Char) : List Char :=
  name.take (name.length - (pySuffix name).length)

/-- The audio extension set of transcribe_audio_directory. -/
def isAudioSuffix (suf : List Char) : Bool :=
  suf == ".mp3".data || suf == ".wav".data || suf == ".MP3".data || suf == ".WAV".data

/-- One directory entry seen by Path.iterdir. -/
structure DirEntry where
  name : List Char
  isFile : Bool
deriving DecidableEq

/-- The iterdir loop: keep regular files with an audio suffix and record
their sanitized names (shutil.move renames each such file in place, so the
collected list holds the renamed paths; two distinct names can collapse to
the same sanitized name). -/
def collectAudioFiles (entries : List DirEntry) : List (List Char) :=
  (entries.filter fun e => e.isFile && isAudioSuffix (pySuffix e.name)).map
    fun e => sanitize e.name

/-- s3_key = transcribe_temp/{timestamp}/{audio_file.name}. -/
def s3KeyFor (ts name : List Char) : List Char :=
  "transcribe_temp/".data ++ ts ++ '/' :: name

/-- job_name = ("transcribe_job_" + timestamp + "_" + str(i) + "_" + stem)[:64]. -/
def jobNameFor (ts : List Char) (i : Nat) (stem : List Char) : List Char :=
  ("transcribe_job_".data ++ ts ++ '_' :: (natToChars i ++ '_' :: stem)).take 64

/-- str(audio_file) under the directory path. -/
def pathJoin (dir name : List Char) : List Char := dir ++ '/' :: name

/-- One row of the report spreadsheet.  The Completion_Time column is a
wall-clock timestamp and is not modelled. -/
structure Row where
  filename : List Char
  filePath : List Char
  transcription : List Char
  status : List Char
  languageCode : List Char
deriving DecidableEq

/-- External outcomes for one file of the batch: the s3 upload
(upload_to_s3 via boto3, none = success), the orchestrator call
(Except.error carries str(e) of the raised exception, Except.ok the
returned transcript), and the cleanup s3.delete_object call. -/
structure FileEnv where
  uploadErr : Option (List Char)
  transcribeRes : Except (List Char) (List Char)
  deleteErr : Option (List Char)

/-- Observable effects of the batch driver, in program order. -/
inductive Event where
  | upload (key : List Char)
  | record (r : Row)
  | deleteOk (key : List Char)
  | deleteFail (key : List Char)
  | saveReport (rows : List Row)
deriving DecidableEq

/-- The success row appended by the try block. -/
def okRow (name path lang text : List Char) : Row :=
  { filename := name, filePath := path, transcription := text,
    status := "Completed".data, languageCode := lang }

/-- The failure row appended by the except block: Transcription holds
"Error: " followed by str(e). -/
def failRow (name path lang emsg : List Char) : Row :=
  { filename := name, filePath := path, transcription := "Error: ".data ++ emsg,
    status := "Failed".data, languageCode := lang }

/-- The try/except body for one file: upload (its exception aborts into the
except clause), transcribe (likewise), append the Completed row, then, when
cleanup_s3 is set, s3.delete_object — whose own exception is also caught by
the same except clause, which then appends a second, Failed, row. -/
def processFile (cleanup : Bool) (lang : List Char) (env : FileEnv)
    (name path key : List Char) : List Event :=
  match env.uploadErr with
  | some e => [Event.record (failRow name path lang e)]
  | none =>
    Event.upload key ::
    match env.transcribeRes with
    | Except.error e => [Event.record (failRow name path lang e)]
    | Except.ok t =>
      Event.record (okRow name path lang t) ::
      (if cleanup then
        match env.deleteErr with
        | none => [Event.deleteOk key]
        | some e => [Event.deleteFail key, Event.record (failRow name path lang e)]
      else [])

/-- The enumerate(audio_files, 1) loop over the sanitized names. -/
def batchRun (cleanup : Bool) (lang : List Char) (envs : Nat → FileEnv)
    (ts dir : List Char) : Nat → List (List Char) → List Event
  | _, [] => []
  | i, n :: rest =>
    processFile cleanup lang (envs i) n (pathJoin dir n) (s3KeyFor ts n) ++
      batchRun cleanup lang envs ts dir (i + 1) rest

/-- The report rows accumulated in the results list, in order. -/
def rowsOf (evs : List Event) : List Row :=
  evs.filterMap fun e =>
    match e with
    | Event.record r => some r
    | _ => none

/-- The keys of the s3 objects actually deleted. -/
def deletedKeys (evs : List Event) : List (List Char) :=
  evs.filterMap fun e =>
    match e with
    | Event.deleteOk k => some k
    | _ => none

/-- The exceptions transcribe_audio_directory raises before any upload:
FileNotFoundError for a missing directory, ValueError for a directory
without audio files. -/
inductive BatchError where
  | fileNotFound (dir : List Char)
  | noAudioFiles (dir : List Char)
deriving DecidableEq

/-- transcribe_audio_directory.  An Except.error result carries no events:
the exception is raised before any s3 upload and before the report file is
written.  On the normal path the events of the per-file loop are followed
by the single write of the report with the accumulated rows. -/
def transcribe_audio_directory (dirExists : Bool) (entries : List DirEntry)
    (cleanup : Bool) (lang ts dirPath : List Char) (envs : Nat → FileEnv) :
    Except BatchError (List Event) :=
  if dirExists = false then Except.error (BatchError.fileNotFound dirPath)
  else
    let files := collectAudioFiles entries
    if files = [] then Except.error (BatchError.noAudioFiles dirPath)
    else
      let evs := batchRun cleanup lang envs ts dirPath 1 files
      Except.ok (evs ++ [Event.saveReport (rowsOf evs)])

/-- The single row the amended batch claim predicts for one file when no
cleanup failure occurs: Failed with the error text when the upload or the
orchestrator raised, Completed with the transcript otherwise. -/
def expectedRow (lang : List Char) (env : FileEnv) (name path : List Char) : Row :=
  match env.uploadErr with
  | some e => failRow name path lang e
  | none =>
    match env.transcribeRes with
    | Except.error e => failRow name path lang e
    | Except.ok t => okRow name path lang t

/-- The predicted report, one row per input file, indices as in the run. -/
def expectedRows (lang : List Char) (envs : Nat → FileEnv) (dir : List Char) :
    Nat → List (List Char) → List Row
  | _, [] => []
  | i, n :: rest =>
    expectedRow lang (envs i) n (pathJoin dir n) :: expectedRows lang envs dir (i + 1) rest

/-- upload_to_s3 of trancribe.py: no try block at all, so any exception of
the boto3 call propagates to the caller; on success an S3 URI string is
returned, not a boolean. -/
def upload_to_s3 (s3Call : Option (List Char)) (filePath bucketName key : List Char) :
    Except (List Char) (List Char) :=
  match s3Call with
  | some e => Except.error e
  | none => Except.ok ("s3://".data ++ bucketName ++ '/' :: key)

/- Helper lemmas. -/

theorem sanitizeChar_idem (c : Char) : sanitizeChar (sanitizeChar c) = sanitizeChar c := by
  by_cases h : isAllowedChar c = true
  · simp [sanitizeChar, h]
  · simp [sanitizeChar, h]

theorem pollLoop_never_terminal (poll : Nat → PollResp) (fetch : List Char → TranscriptDoc)
    (job : List Char) :
    ∀ (t k : Nat), (∀ m, m < t → ¬ isTerminal (poll (k + m))) →
      pollLoop poll fetch job k t =
        (TOutcome.timedOut ("Transcription job ".data ++ job ++ " timed out".data),
         k + t, List.replicate t 10) := by
  intro t
  induction t with
  | zero => intro k h; simp [pollLoop]
  | succ t ih =>
    intro k h
    have h0 : ¬ isTerminal (poll k) := by
      have := h 0 (Nat.succ_pos t)
      simpa using this
    have hC : ¬ (poll k).status = "COMPLETED".data := fun hc => h0 (Or.inl hc)
    have hF : ¬ (poll k).status = "FAILED".data := fun hf => h0 (Or.inr hf)
    have hrest : ∀ m, m < t → ¬ isTerminal (poll (k + 1 + m)) := by
      intro m hm
      have := h (m + 1) (by omega)
      have e : k + (m + 1) = k + 1 + m := by omega
      rwa [e] at this
    rw [pollLoop, if_neg hC, if_neg hF, ih (k + 1) hrest]
    refine Prod.ext ?_ (Prod.ext ?_ ?_)
    · rfl
    · simp; omega
    · simp [List.replicate_succ]

theorem pollLoop_completed (poll : Nat → PollResp) (fetch : List Char → TranscriptDoc)
    (job : List Char) :
    ∀ (d k t : Nat), d < t → (∀ m, m < d → ¬ isTerminal (poll (k + m))) →
      (poll (k + d)).status = "COMPLETED".data →
      pollLoop poll fetch job k t =
        (completedResult (fetch (poll (k + d)).transcriptUri), k + d + 1,
         List.replicate d 10) := by
  intro d
  induction d with
  | zero =>
    intro k t ht _ hC
    cases t with
    | zero => omega
    | succ t =>
      rw [Nat.add_zero] at hC
      rw [pollLoop, if_pos hC]
      simp
  | succ d ih =>
    intro k t ht h hC
    cases t with
    | zero => omega
    | succ t =>
      have h0 : ¬ isTerminal (poll k) := by
        have := h 0 (Nat.succ_pos d)
        simpa using this
      have hCk : ¬ (poll k).status = "COMPLETED".data := fun hc => h0 (Or.inl hc)
      have hFk : ¬ (poll k).status = "FAILED".data := fun hf => h0 (Or.inr hf)
      have hrest : ∀ m, m < d → ¬ isTerminal (poll (k + 1 + m)) := by
        intro m hm
        have := h (m + 1) (by omega)
        have e : k + (m + 1) = k + 1 + m := by omega
        rwa [e] at this
      have hC1 : (poll (k + 1 + d)).status = "COMPLETED".data := by
        have e : k + (d + 1) = k + 1 + d := by omega
        rwa [e] at hC
      rw [pollLoop, if_neg hCk, if_neg hFk, ih (k + 1) t (by omega) hrest hC1]
      have e : k + 1 + d = k + (d + 1) := by omega
      rw [e]
      refine Prod.ext rfl (Prod.ext rfl ?_)
      simp [List.replicate_succ]

theorem digitChar_ne_underscore (d : Nat) (h : d < 10) : digitChar d ≠ '_' := by
  interval_cases d <;> decide

theorem digitChar_toNat (d : Nat) (h : d < 10) : (digitChar d).toNat = 48 + d := by
  interval_cases d <;> decide

theorem natDigitsGo_no_underscore : ∀ (fuel n : Nat), '_' ∉ natDigitsGo fuel n := by
  intro fuel
  induction fuel with
  | zero => intro n; simp [natDigitsGo]
  | succ f ih =>
    intro n
    by_cases h0 : n = 0
    · simp [natDigitsGo, h0]
    · simp only [natDigitsGo, if_neg h0, List.mem_append, List.mem_singleton]
      rintro (hmem | heq)
      · exact ih (n / 10) hmem
      · exact digitChar_ne_underscore (n % 10) (Nat.mod_lt n (by norm_num)) heq.symm

theorem natToChars_no_underscore (n : Nat) : '_' ∉ natToChars n := by
  unfold natToChars
  split
  · decide
  · exact natDigitsGo_no_underscore n n

theorem charsToNat_append_digit (l : List Char) (c : Char) :
    charsToNat (l ++ [c]) = 10 * charsToNat l + (c.toNat - 48) := by
  simp [charsToNat, List.foldl_append]

theorem charsToNat_natDigitsGo : ∀ (fuel n : Nat), n ≤ fuel →
    charsToNat (natDigitsGo fuel n) = n := by
  intro fuel
  induction fuel with
  | zero =>
    intro n h
    have h0 : n = 0 := by omega
    simp [natDigitsGo, h0, charsToNat]
  | succ f ih =>
    intro n h
    by_cases h0 : n = 0
    · simp [natDigitsGo, h0, charsToNat]
    · have hdiv : n / 10 < n := Nat.div_lt_self (Nat.pos_of_ne_zero h0) (by norm_num)
      rw [natDigitsGo, if_neg h0, charsToNat_append_digit,
        ih (n / 10) (by omega), digitChar_toNat (n % 10) (Nat.mod_lt n (by norm_num))]
      omega

theorem charsToNat_natToChars (n : Nat) : charsToNat (natToChars n) = n := by
  unfold natToChars
  split
  · rename_i h0
    rw [h0]
    decide
  · exact charsToNat_natDigitsGo n n le_rfl

theorem natToChars_inj {a b : Nat} (h : natToChars a = natToChars b) : a = b := by
  have hc := congrArg charsToNat h
  rwa [charsToNat_natToChars, charsToNat_natToChars] at hc

theorem natDigitsGo_length : ∀ (fuel n k : Nat), n ≤ fuel → n < 10 ^ k →
    (natDigitsGo fuel n).length ≤ k := by
  intro fuel
  induction fuel with
  | zero => intro n k _ _; simp [natDigitsGo]
  | succ f ih =>
    intro n k h hk
    by_cases h0 : n = 0
    · simp [natDigitsGo, h0]
    · cases k with
      | zero =>
        simp at hk
        omega
      | succ k =>
        have hdiv : n / 10 < n := Nat.div_lt_self (Nat.pos_of_ne_zero h0) (by norm_num)
        have hk1 : n / 10 < 10 ^ k := by
          rw [Nat.div_lt_iff_lt_mul (by norm_num : (0:Nat) < 10)]
          calc n < 10 ^ (k + 1) := hk
          _ = 10 ^ k * 10 := by rw [pow_succ]
        simp only [natDigitsGo, if_neg h0, List.length_append, List.length_singleton]
        have := ih (n / 10) k (by omega) hk1
        omega

theorem natToChars_length_le (n k : Nat) (h : n < 10 ^ k) (hk : 0 < k) :
    (natToChars n).length ≤ k := by
  unfold natToChars
  split
  · simpa using hk
  · exact natDigitsGo_length n n k le_rfl h

theorem append_underscore_inj :
    ∀ (d₁ d₂ t₁ t₂ : List Char), '_' ∉ d₁ → '_' ∉ d₂ →
      d₁ ++ '_' :: t₁ = d₂ ++ '_' :: t₂ → d₁ = d₂ := by
  intro d₁
  induction d₁ with
  | nil =>
    intro d₂ t₁ t₂ _ h2 he
    cases d₂ with
    | nil => rfl
    | cons c cs =>
      simp only [List.nil_append, List.cons_append] at he
      injection he with hc _
      exact absurd (hc ▸ List.mem_cons_self c cs) h2
  | cons c cs ih =>
    intro d₂ t₁ t₂ h1 h2 he
    cases d₂ with
    | nil =>
      simp only [List.nil_append, List.cons_append] at he
      injection he with hc _
      exact absurd (hc ▸ List.mem_cons_self c cs) h1
    | cons c2 cs2 =>
      simp only [List.cons_append] at he
      injection he with hc hrest
      have := ih cs2 t₁ t₂ (fun hm => h1 (List.mem_cons_of_mem c hm))
        (fun hm => h2 (List.mem_cons_of_mem c2 hm)) hrest
      rw [hc, this]

theorem isPrefixOfCL_self_append : ∀ (l m : List Char), isPrefixOfCL l (l ++ m) = true := by
  intro l
  induction l with
  | nil => intro m; rfl
  | cons a as ih => intro m; simp [isPrefixOfCL, ih]

theorem splitFirst_at_sep (h : Char) (t K : List Char) :
    splitFirst (h :: t) ((h :: t) ++ K) = some ([], K) := by
  have hpre : isPrefixOfCL (h :: t) ((h :: t) ++ K) = true := isPrefixOfCL_self_append _ _
  simp only [List.cons_append] at hpre ⊢
  rw [splitFirst, if_pos hpre]
  simp [List.drop_left]

theorem splitFirst_append (hc : Char) (t K : List Char) :
    ∀ (A : List Char), hc ∉ A →
      splitFirst (hc :: t) (A ++ (hc :: t) ++ K) = some (A, K) := by
  intro A
  induction A with
  | nil => intro _; simpa using splitFirst_at_sep hc t K
  | cons c cs ih =>
    intro hA
    have hne : ¬ hc = c := fun he => hA (he ▸ List.mem_cons_self c cs)
    have hrec := ih (fun hm => hA (List.mem_cons_of_mem c hm))
    have hpre : isPrefixOfCL (hc :: t) (c :: (cs ++ hc :: (t ++ K))) = false := by
      simp only [isPrefixOfCL]
      rw [if_neg hne]
    simp only [List.cons_append, List.append_assoc] at hrec ⊢
    rw [splitFirst, if_neg (by simp [hpre]), hrec]
    rfl

theorem pyReplace_eq_self (a b : Char) (l : List Char) (h : ∀ c ∈ l, ¬ c = a) :
    pyReplace a b l = l := by
  induction l with
  | nil => rfl
  | cons c cs ih =>
    simp only [pyReplace, List.map_cons]
    rw [if_neg (h c (List.mem_cons_self c cs))]
    have := ih fun x hx => h x (List.mem_cons_of_mem c hx)
    simp only [pyReplace] at this
    rw [this]

theorem rowsOf_append (a b : List Event) : rowsOf (a ++ b) = rowsOf a ++ rowsOf b := by
  simp [rowsOf, List.filterMap_append]

theorem processFile_rows (cleanup : Bool) (lang : List Char) (env : FileEnv)
    (name path key : List Char) (hdel : env.deleteErr = none) :
    rowsOf (processFile cleanup lang env name path key) = [expectedRow lang env name path] := by
  rcases hu : env.uploadErr with _ | e
  · rcases htr : env.transcribeRes with e | t
    · simp [processFile, rowsOf, expectedRow, hu, htr]
    · cases cleanup <;> simp [processFile, rowsOf, expectedRow, hu, htr, hdel]
  · simp [processFile, rowsOf, expectedRow, hu]

theorem batchRun_rows (cleanup : Bool) (lang : List Char) (envs : Nat → FileEnv)
    (ts dir : List Char) (hdel : ∀ j, (envs j).deleteErr = none) :
    ∀ (names : List (List Char)) (i : Nat),
      rowsOf (batchRun cleanup lang envs ts dir i names) = expectedRows lang envs dir i names := by
  intro names
  induction names with
  | nil => intro i; simp [batchRun, rowsOf, expectedRows]
  | cons n rest ih =>
    intro i
    rw [batchRun, rowsOf_append, processFile_rows cleanup lang (envs i) _ _ _ (hdel i), ih]
    rfl

theorem expectedRows_length (lang : List Char) (envs : Nat → FileEnv) (dir : List Char) :
    ∀ (names : List (List Char)) (i : Nat),
      (expectedRows lang envs dir i names).length = names.length := by
  intro names
  induction names with
  | nil => intro i; rfl
  | cons n rest ih => intro i; simp [expectedRows, ih]

/- Claim theorems. -/

/-- C1: when no status check of a transcription job ever reports COMPLETED
or FAILED, transcribe_file performs exactly the configured maximum of 60
status checks, sleeping the fixed 10-second interval after each of them
(constant delay, no exponential backoff), and raises a TimeoutError, an
outcome distinct from the job-failure exception. -/
theorem transcribe_file_timeout (poll : Nat → PollResp) (fetch : List Char → TranscriptDoc)
    (job : List Char) (h : ∀ k, k < 60 → ¬ isTerminal (poll k)) :
    transcribe_file poll fetch job =
      (TOutcome.timedOut ("Transcription job ".data ++ job ++ " timed out".data),
       60, List.replicate 60 10)
    ∧ ∀ a b, TOutcome.timedOut a ≠ TOutcome.jobFailed b := by
  refine ⟨?_, fun a b hab => TOutcome.noConfusion hab⟩
  unfold transcribe_file
  have := pollLoop_never_terminal poll fetch job 60 0 (fun m hm => by simpa using h m hm)
  simpa using this

/-- C1 witness: a job whose status is always IN_PROGRESS times out after
exactly 60 checks and 60 fixed sleeps of 10 seconds. -/
theorem transcribe_file_timeout_witness :
    transcribe_file (fun _ => ⟨"IN_PROGRESS".data, [], none⟩) (fun _ => ⟨[]⟩) "job1".data =
      (TOutcome.timedOut ("Transcription job ".data ++ "job1".data ++ " timed out".data),
       60, List.replicate 60 10) :=
  (transcribe_file_timeout (fun _ => ⟨"IN_PROGRESS".data, [], none⟩) (fun _ => ⟨[]⟩)
    "job1".data (by decide)).1

/-- C2: when the first N status checks report a non-terminal status
(N below the maximum of 60) and check N+1 reports COMPLETED,
transcribe_file performs exactly N+1 status checks and returns the first
transcript field parsed from the result document fetched at the transcript
location returned by that final status check. -/
theorem transcribe_file_success (poll : Nat → PollResp) (fetch : List Char → TranscriptDoc)
    (job : List Char) (N : Nat) (tx : List Char) (rest : List (List Char))
    (hN : N < 60) (hrun : ∀ k, k < N → ¬ isTerminal (poll k))
    (hC : (poll N).status = "COMPLETED".data)
    (hdoc : (fetch (poll N).transcriptUri).transcripts = tx :: rest) :
    transcribe_file poll fetch job = (TOutcome.transcript tx, N + 1, List.replicate N 10) := by
  unfold transcribe_file
  have h0 := pollLoop_completed poll fetch job N 0 60 hN
    (fun m hm => by simpa using hrun m hm) (by simpa using hC)
  simp only [Nat.zero_add] at h0
  rw [h0, completedResult, hdoc]

/-- C2 witness: one RUNNING response followed by COMPLETED yields the first
transcript of the fetched document after exactly 2 status checks. -/
theorem transcribe_file_success_witness :
    transcribe_file
      (fun k => if k = 0 then ⟨"IN_PROGRESS".data, [], none⟩
        else ⟨"COMPLETED".data, "https://r/t.json".data, none⟩)
      (fun _ => ⟨["hello world".data]⟩) "job2".data =
      (TOutcome.transcript "hello world".data, 2, List.replicate 1 10) :=
  transcribe_file_success
    (fun k => if k = 0 then ⟨"IN_PROGRESS".data, [], none⟩
      else ⟨"COMPLETED".data, "https://r/t.json".data, none⟩)
    (fun _ => ⟨["hello world".data]⟩) "job2".data 1 "hello world".data []
    (by decide) (by decide) (by decide) rfl

/-- C8: the filename sanitization of the batch driver is idempotent. -/
theorem sanitize_idempotent (s : List Char) : sanitize (sanitize s) = sanitize s := by
  induction s with
  | nil => rfl
  | cons c cs ih =>
    simp only [sanitize, List.map_cons] at ih ⊢
    rw [sanitizeChar_idem, ih]

/-- C3 counterexample: a 3-file batch in which exactly one file fails —
file 2, whose post-success s3.delete_object call raises inside the same try
block — produces a report of 4 rows, not one row per file: the except
clause appends a second, Failed, row for file 2 after its Completed row. -/
theorem batch_row_per_file_counterexample :
    (rowsOf (batchRun true "en-US".data
      (fun j => if j = 2 then ⟨none, Except.ok "text".data, some "boom".data⟩
        else ⟨none, Except.ok "text".data, none⟩)
      "20240101_000000".data "/audio".data 1
      ["a.wav".data, "b.wav".data, "c.wav".data])).length = 4
    ∧ ["a.wav".data, "b.wav".data, "c.wav".data].length = 3 := by
  exact ⟨by decide, by decide⟩

/-- C3 amended: a failure while processing one file never aborts the batch,
and, provided no failure occurs in the post-success S3 cleanup step, every
file yields exactly one report row — Failed with the error text recorded
in the Transcription column when its upload or transcription raised,
Completed otherwise — so the report has exactly one row per input file.
(A failure of the cleanup delete itself additionally appends a second,
Failed, row for that file.) -/
theorem batch_isolates_failures (cleanup : Bool) (lang : List Char) (envs : Nat → FileEnv)
    (ts dir : List Char) (names : List (List Char))
    (hdel : ∀ j, (envs j).deleteErr = none) :
    rowsOf (batchRun cleanup lang envs ts dir 1 names) = expectedRows lang envs dir 1 names
    ∧ (rowsOf (batchRun cleanup lang envs ts dir 1 names)).length = names.length := by
  have h := batchRun_rows cleanup lang envs ts dir hdel names 1
  exact ⟨h, by rw [h, expectedRows_length]⟩

/-- C3 witness: 3 files where only file 2 fails (its transcription raises)
give a 3-row report with file 2 Failed — carrying the error text — and
files 1 and 3 Completed. -/
theorem batch_isolates_failures_witness :
    rowsOf (batchRun true "en-US".data
      (fun j => if j = 2 then ⟨none, Except.error "Transcription failed: bad media".data, none⟩
        else ⟨none, Except.ok "text".data, none⟩)
      "20240101_000000".data "/audio".data 1
      ["a.wav".data, "b.wav".data, "c.wav".data]) =
      [okRow "a.wav".data (pathJoin "/audio".data "a.wav".data) "en-US".data "text".data,
       failRow "b.wav".data (pathJoin "/audio".data "b.wav".data) "en-US".data
         "Transcription failed: bad media".data,
       okRow "c.wav".data (pathJoin "/audio".data "c.wav".data) "en-US".data "text".data] := by
  rw [(batch_isolates_failures true "en-US".data
    (fun j => if j = 2 then ⟨none, Except.error "Transcription failed: bad media".data, none⟩
      else ⟨none, Except.ok "text".data, none⟩)
    "20240101_000000".data "/audio".data
    ["a.wav".data, "b.wav".data, "c.wav".data]
    (fun j => by by_cases h : j = 2 <;> simp [h])).1]
  decide

/-- C4 counterexample: with cleanup_s3 enabled, a file whose transcription
raises is uploaded but its remote object is never deleted — the delete call
sits on the success path only — contradicting deletion regardless of
outcome. -/
theorem cleanup_regardless_counterexample :
    processFile true "en-US".data ⟨none, Except.error "Transcription failed: boom".data, none⟩
        "a.wav".data "/audio/a.wav".data "k1".data =
      [Event.upload "k1".data,
       Event.record (failRow "a.wav".data "/audio/a.wav".data "en-US".data
         "Transcription failed: boom".data)]
    ∧ deletedKeys (processFile true "en-US".data
        ⟨none, Except.error "Transcription failed: boom".data, none⟩
        "a.wav".data "/audio/a.wav".data "k1".data) = [] := by
  exact ⟨by decide, by decide⟩

/-- C4 amended: with cleanup_s3 enabled the remote object of a file is
deleted — after the Completed row is recorded — exactly when its upload and
transcription succeeded and the delete call itself succeeds; when the
upload or the transcription fails, no deletion of that object occurs. -/
theorem cleanup_only_after_success (lang : List Char) (env : FileEnv)
    (name path key : List Char) :
    (∀ t, env.uploadErr = none → env.transcribeRes = Except.ok t → env.deleteErr = none →
      processFile true lang env name path key =
        [Event.upload key, Event.record (okRow name path lang t), Event.deleteOk key])
    ∧ (∀ e, env.transcribeRes = Except.error e →
        deletedKeys (processFile true lang env name path key) = [])
    ∧ (∀ e, env.uploadErr = some e →
        deletedKeys (processFile true lang env name path key) = []) := by
  refine ⟨?_, ?_, ?_⟩
  · intro t hu htr hd
    simp [processFile, hu, htr, hd]
  · intro e htr
    rcases hu : env.uploadErr with _ | e2
    · simp [processFile, deletedKeys, hu, htr]
    · simp [processFile, deletedKeys, hu]
  · intro e hu
    simp [processFile, deletedKeys, hu]

/-- C4 witness: a fully successful file yields upload, Completed row, then
the delete of its key, in that order; a file whose transcription raises
yields no deletion. -/
theorem cleanup_only_after_success_witness :
    processFile true "en-US".data ⟨none, Except.ok "txt".data, none⟩
        "a.wav".data "/audio/a.wav".data "k1".data =
      [Event.upload "k1".data,
       Event.record (okRow "a.wav".data "/audio/a.wav".data "en-US".data "txt".data),
       Event.deleteOk "k1".data]
    ∧ deletedKeys (processFile true "en-US".data ⟨none, Except.error "boom".data, none⟩
        "a.wav".data "/audio/a.wav".data "k1".data) = [] :=
  ⟨(cleanup_only_after_success "en-US".data ⟨none, Except.ok "txt".data, none⟩
      "a.wav".data "/audio/a.wav".data "k1".data).1 "txt".data rfl rfl rfl,
   (cleanup_only_after_success "en-US".data ⟨none, Except.error "boom".data, none⟩
      "a.wav".data "/audio/a.wav".data "k1".data).2.1 "boom".data rfl⟩

/-- C5 counterexample: the per-run names are not always pairwise distinct.
Two distinct input filenames can be renamed to the same sanitized name by
the iterdir loop, making their generated S3 keys equal; and the 64-character
truncation of the job name makes two different indices (with any stems)
collide once the decimal index reaches 33 digits. -/
theorem run_names_unique_counterexample :
    ("a b.mp3".data ≠ "a_b.mp3".data
      ∧ s3KeyFor "20240101_000000".data (sanitize "a b.mp3".data)
          = s3KeyFor "20240101_000000".data (sanitize "a_b.mp3".data))
    ∧ ((10 : Nat) ^ 32 ≠ 10 ^ 33
      ∧ jobNameFor "20240101_000000".data (10 ^ 32) "a".data
          = jobNameFor "20240101_000000".data (10 ^ 33) "b".data) :=
  ⟨⟨by decide, by decide⟩, ⟨by decide, by decide⟩⟩

/-- C5 amended: within one run (fixed 15-character timestamp), the S3
object keys of two files are distinct whenever their sanitized names are
distinct, and the job names of two files at distinct positions are distinct
whenever both decimal indices stay below 33 digits (always the case for a
real directory), whatever the file stems are. -/
theorem run_names_unique (ts : List Char) (hts : ts.length = 15) :
    (∀ (a b : List Char), sanitize a ≠ sanitize b →
      s3KeyFor ts (sanitize a) ≠ s3KeyFor ts (sanitize b))
    ∧ (∀ (i j : Nat) (s₁ s₂ : List Char), i < 10 ^ 32 → j < 10 ^ 32 → i ≠ j →
        jobNameFor ts i s₁ ≠ jobNameFor ts j s₂) := by
  constructor
  · intro a b hne heq
    apply hne
    unfold s3KeyFor at heq
    have h1 := List.append_cancel_left heq
    injection h1 with _ h3
  · intro i j s₁ s₂ hi hj hij heq
    have hassoc : ∀ (m : Nat) (st : List Char),
        jobNameFor ts m st =
          (("transcribe_job_".data ++ ts ++ ['_']) ++ (natToChars m ++ '_' :: st)).take 64 := by
      intro m st
      simp [jobNameFor, List.append_assoc]
    have h15 : ("transcribe_job_".data).length = 15 := by decide
    have hPlen : ("transcribe_job_".data ++ ts ++ ['_']).length = 31 := by
      simp [List.length_append, h15, hts]
    have expand : ∀ (m : Nat) (st : List Char), (natToChars m).length ≤ 32 →
        (("transcribe_job_".data ++ ts ++ ['_']) ++ (natToChars m ++ '_' :: st)).take 64 =
          ("transcribe_job_".data ++ ts ++ ['_']) ++
            (natToChars m ++ '_' :: st.take (32 - (natToChars m).length)) := by
      intro m st hm
      rw [List.take_append_eq_append_take,
        List.take_of_length_le (by omega : (("transcribe_job_".data ++ ts ++ ['_']).length ≤ 64)),
        hPlen]
      norm_num
      rw [List.take_append_eq_append_take,
        List.take_of_length_le (by omega : ((natToChars m).length ≤ 33))]
      have e : 33 - (natToChars m).length = (32 - (natToChars m).length) + 1 := by omega
      rw [e, List.take_succ_cons]
    have hli : (natToChars i).length ≤ 32 := natToChars_length_le i 32 hi (by norm_num)
    have hlj : (natToChars j).length ≤ 32 := natToChars_length_le j 32 hj (by norm_num)
    rw [hassoc i s₁, hassoc j s₂, expand i s₁ hli, expand j s₂ hlj] at heq
    have hcancel := List.append_cancel_left heq
    have hD := append_underscore_inj _ _ _ _
      (natToChars_no_underscore i) (natToChars_no_underscore j) hcancel
    exact hij (natToChars_inj hD)

/-- C5 witness: with the run timestamp 20240101_000000, two files with
distinct sanitized names get distinct S3 keys, and positions 1 and 2 get
distinct job names. -/
theorem run_names_unique_witness :
    s3KeyFor "20240101_000000".data (sanitize "a.mp3".data)
        ≠ s3KeyFor "20240101_000000".data (sanitize "b.mp3".data)
    ∧ jobNameFor "20240101_000000".data 1 (pyStem (sanitize "a.mp3".data))
        ≠ jobNameFor "20240101_000000".data 2 (pyStem (sanitize "b.mp3".data)) :=
  ⟨(run_names_unique "20240101_000000".data (by decide)).1 "a.mp3".data "b.mp3".data (by decide),
   (run_names_unique "20240101_000000".data (by decide)).2 1 2
     (pyStem (sanitize "a.mp3".data)) (pyStem (sanitize "b.mp3".data))
     (by decide) (by decide) (by decide)⟩

/-- C6 counterexample: not every storage operation converts errors to a
boolean.  The batch driver helper upload_to_s3 has no try block: any error
of the boto3 call propagates to the caller, and its success value is an S3
URI string, not a boolean; and upload_user_file lets any exception that is
not a botocore ClientError (here a boto3 transfer error) propagate. -/
theorem storage_error_counterexample :
    upload_to_s3 (some "network down".data) "/tmp/a.wav".data "voxbee".data
        "transcribe_temp/x/a.wav".data = Except.error "network down".data
    ∧ upload_user_file (some (S3Err.otherError "S3UploadFailedError".data))
        "/tmp/a.wav".data "1".data "transcribe".data "p".data none =
        Except.error "S3UploadFailedError".data :=
  ⟨rfl, rfl⟩

/-- C6 amended: download_user_file and delete_user_file catch every error
raised during the operation — ClientError or any other exception class —
log it, and return False instead of propagating; upload_user_file converts
a provider ClientError to a (False, None) result, but exceptions of other
classes propagate out of it; and upload_to_s3 of the batch driver catches
nothing and returns a URI string, not a boolean. -/
theorem storage_errors_converted (m fileName userId featureName projectId : List Char)
    (objectName : Option (List Char)) (url path bucket : List Char)
    (err₁ err₂ : S3Err) (existsAfter : Bool) :
    upload_user_file (some (S3Err.clientError m)) fileName userId featureName projectId
        objectName = Except.ok (false, none)
    ∧ download_user_file (some err₁) existsAfter url path bucket = false
    ∧ delete_user_file (some err₂) url bucket = false := by
  refine ⟨rfl, ?_, ?_⟩
  · rcases h : extractObjectKey (urlSep bucket) url with _ | k <;>
      simp [download_user_file, h]
  · rcases h : extractObjectKey (urlSep bucket) url with _ | k <;>
      simp [delete_user_file, h]

/-- C7 counterexample: the key/URL round-trip fails for an object key
holding a backslash: upload_user_file replaces every backslash of the
public URL by a forward slash, so the key read back from the URL differs
from the original key. -/
theorem url_roundtrip_counterexample :
    extractObjectKey (urlSep "voxbee".data)
        (publicUrlFor (objectKey "1".data "f".data "p".data ['a', '\\', 'b'])) =
      some "user_1/f/p/a/b".data
    ∧ some "user_1/f/p/a/b".data ≠
        some (objectKey "1".data "f".data "p".data ['a', '\\', 'b']) :=
  ⟨by decide, by decide⟩

/-- C7 amended: for every object key user_{user_id}/{feature}/{project}/
{object_name} that holds no backslash character and does not itself contain
the substring voxbee.s3.amazonaws.com/, extracting the part after the host
marker from the public URL generated by upload_user_file — exactly the
split performed by download_user_file and delete_user_file — recovers the
original object key. -/
theorem url_roundtrip (userId featureName projectId objName : List Char)
    (hnb : ∀ c ∈ objectKey userId featureName projectId objName, ¬ c = '\\')
    (hns : containsSub (urlSep "voxbee".data)
      (objectKey userId featureName projectId objName) = false) :
    extractObjectKey (urlSep "voxbee".data)
        (publicUrlFor (objectKey userId featureName projectId objName)) =
      some (objectKey userId featureName projectId objName) := by
  have hsep : urlSep "voxbee".data = 'v' :: "oxbee.s3.amazonaws.com/".data := by decide
  have hhost : ("https://voxbee.s3.amazonaws.com/".data : List Char) =
      "https://".data ++ urlSep "voxbee".data := by decide
  have hpre : ∀ c, c ∈ ("https://voxbee.s3.amazonaws.com/".data : List Char) →
      ¬ c = '\\' := by decide
  have hall : ∀ c ∈ ("https://".data ++ urlSep "voxbee".data) ++
      objectKey userId featureName projectId objName, ¬ c = '\\' := by
    intro c hc
    rcases List.mem_append.mp hc with hc | hc
    · rw [← hhost] at hc
      exact hpre c hc
    · exact hnb c hc
  have hrep : publicUrlFor (objectKey userId featureName projectId objName) =
      ("https://".data ++ urlSep "voxbee".data) ++
        objectKey userId featureName projectId objName := by
    rw [publicUrlFor, hhost]
    exact pyReplace_eq_self '\\' '/' _ hall
  have hfirst : splitFirst (urlSep "voxbee".data)
      (("https://".data ++ urlSep "voxbee".data) ++
        objectKey userId featureName projectId objName) =
      some ("https://".data, objectKey userId featureName projectId objName) := by
    rw [hsep]
    exact splitFirst_append 'v' "oxbee.s3.amazonaws.com/".data
      (objectKey userId featureName projectId objName) "https://".data (by decide)
  have hnone : splitFirst (urlSep "voxbee".data)
      (objectKey userId featureName projectId objName) = none := by
    rcases hsf : splitFirst (urlSep "voxbee".data)
        (objectKey userId featureName projectId objName) with _ | v
    · rfl
    · rw [containsSub, hsf] at hns
      simp at hns
  rw [hrep]
  simp only [extractObjectKey, hfirst, hnone]

/-- C7 witness: a plain audio object key round-trips through the generated
public URL. -/
theorem url_roundtrip_witness :
    extractObjectKey (urlSep "voxbee".data)
        (publicUrlFor (objectKey "1".data "transcribe".data "p7".data "song.mp3".data)) =
      some (objectKey "1".data "transcribe".data "p7".data "song.mp3".data) :=
  url_roundtrip "1".data "transcribe".data "p7".data "song.mp3".data (by decide) (by decide)

/-- C9: for every public URL without the bucket host marker as a substring,
the key extraction raises an IndexError inside the try block, the blanket
except clause catches it, and both download_user_file and delete_user_file
return False instead of letting the exception escape. -/
theorem missing_host_marker_returns_false (s3dl s3del : Option S3Err) (existsAfter : Bool)
    (url path bucket : List Char)
    (h : containsSub (urlSep bucket) url = false) :
    download_user_file s3dl existsAfter url path bucket = false
    ∧ delete_user_file s3del url bucket = false := by
  have hnone : splitFirst (urlSep bucket) url = none := by
    rcases hsf : splitFirst (urlSep bucket) url with _ | v
    · rfl
    · rw [containsSub, hsf] at h
      simp at h
  constructor
  · simp [download_user_file, extractObjectKey, hnone]
  · simp [delete_user_file, extractObjectKey, hnone]

/-- C9 witness: a URL on a foreign host makes both operations return False. -/
theorem missing_host_marker_returns_false_witness :
    download_user_file none true "http://example.com/a.wav".data "/tmp/a.wav".data
        "voxbee".data = false
    ∧ delete_user_file none "http://example.com/a.wav".data "voxbee".data = false :=
  missing_host_marker_returns_false none none true "http://example.com/a.wav".data
    "/tmp/a.wav".data "voxbee".data (by decide)

/-- C10: transcribe_audio_directory raises FileNotFoundError when the
directory does not exist and ValueError when it exists but holds no file
with an mp3 or wav extension; in both cases it returns the error with no
recorded event, so nothing was uploaded to object storage and no report
file was written. -/
theorem directory_preconditions (entries : List DirEntry) (cleanup : Bool)
    (lang ts dirPath : List Char) (envs : Nat → FileEnv) :
    transcribe_audio_directory false entries cleanup lang ts dirPath envs =
      Except.error (BatchError.fileNotFound dirPath)
    ∧ (collectAudioFiles entries = [] →
        transcribe_audio_directory true entries cleanup lang ts dirPath envs =
          Except.error (BatchError.noAudioFiles dirPath)) := by
  constructor
  · rfl
  · intro h
    simp [transcribe_audio_directory, h]

/-- C10 witness: a missing directory raises FileNotFoundError, and a
directory holding only non-audio files raises ValueError. -/
theorem directory_preconditions_witness :
    transcribe_audio_directory false [⟨"x.mp3".data, true⟩] true "en-US".data
        "ts".data "/d".data (fun _ => ⟨none, Except.ok [], none⟩) =
      Except.error (BatchError.fileNotFound "/d".data)
    ∧ transcribe_audio_directory true [⟨"notes.txt".data, true⟩, ⟨"clip.mp4".data, true⟩]
        true "en-US".data "ts".data "/d".data (fun _ => ⟨none, Except.ok [], none⟩) =
      Except.error (BatchError.noAudioFiles "/d".data) :=
  ⟨(directory_preconditions [⟨"x.mp3".data, true⟩] true "en-US".data "ts".data "/d".data
      (fun _ => ⟨none, Except.ok [], none⟩)).1,
   (directory_preconditions [⟨"notes.txt".data, true⟩, ⟨"clip.mp4".data, true⟩] true
      "en-US".data "ts".data "/d".data (fun _ => ⟨none, Except.ok [], none⟩)).2 (by decide)⟩
